import Mathlib

/-!
# Quiz grading (ConsoleApplication8.cpp)

A shallow embedding of the question classes of `ConsoleApplication8.cpp` and of
their `checkAnswer` grading functions.

* `std::vector<T>` is a `List T` (insertion order = list order), `char` is `Char`,
  `std::string` is `String`.
* An iterator returned by `std::find_if` is modelled by `Option`: `none` is the
  `end()` iterator, `some a` is an iterator at the element `a`.
* `size()` of a vector and the result of `std::count_if` are element counts and are
  kept as natural numbers; the one arithmetic expression on `size_t` values
  (`numCorrectAnswers / 2 + numCorrectAnswers % 2`) is reduced modulo `2 ^ 64`.
-/

namespace Quiz

/-! ## Standard algorithms used by the source -/

/-- `std::find_if`: the first element satisfying `p`, `none` for the end iterator. -/
def find_if {α : Type} (p : α → Bool) : List α → Option α
  | [] => none
  | x :: xs => if p x then some x else find_if p xs

/-- `std::count_if`: the number of elements satisfying `p`. -/
def count_if {α : Type} (p : α → Bool) : List α → Nat
  | [] => 0
  | x :: xs => if p x then count_if p xs + 1 else count_if p xs

/-- `std::all_of`: every element satisfies `p` (true on the empty range). -/
def all_of {α : Type} (p : α → Bool) : List α → Bool
  | [] => true
  | x :: xs => if p x then all_of p xs else false

/-- `std::equal` over a first range and the start of a second one of at least the same length. -/
def equal {α : Type} [BEq α] : List α → List α → Bool
  | [], _ => true
  | _ :: _, [] => false
  | x :: xs, y :: ys => if x == y then equal xs ys else false

/-- `operator==` of `std::vector`: same size and equal element by element. -/
def vector_eq {α : Type} [BEq α] (a b : List α) : Bool :=
  a.length == b.length && equal a b

/-- Number of values of `size_t` (64-bit). -/
def SIZE_MOD : Nat := 2 ^ 64

/-! ## Answer and Question -/

/-- Class `Answer`: a labelled option with its text and correctness flag. -/
structure Answer where
  option : Char
  text : String
  isCorrect : Bool
  deriving DecidableEq, Repr

/-- `Answer::getOption`. -/
def Answer.getOption (a : Answer) : Char := a.option

/-- `Answer::getText`. -/
def Answer.getText (a : Answer) : String := a.text

/-- `Answer::isCorrectAnswer`. -/
def Answer.isCorrectAnswer (a : Answer) : Bool := a.isCorrect

/-- Class `Question`: the prompt and the ordered options. -/
structure Question where
  questionText : String
  answers : List Answer
  deriving DecidableEq, Repr

/-- Constructor `Question(questionText)`: no options yet. -/
def Question.new (questionText : String) : Question :=
  { questionText := questionText, answers := [] }

/-- `Question::addAnswer`: `push_back` of a new `Answer`. -/
def Question.addAnswer (q : Question) (option : Char) (text : String) (isCorrect : Bool) :
    Question :=
  { q with answers := q.answers ++ [Answer.mk option text isCorrect] }

/-- `Question::getAnswers`. -/
def Question.getAnswers (q : Question) : List Answer := q.answers

/-- `Question::checkAnswer(char)`. -/
def Question.checkAnswer (q : Question) (userAnswer : Char) : Bool :=
  match find_if (fun answer => answer.getOption == userAnswer) q.answers with
  | none => false
  | some it => it.isCorrectAnswer

/-! ## SingleChoiceQuestion -/

/-- Class `SingleChoiceQuestion`: a `Question` without extra state; it is graded
by the inherited `Question::checkAnswer(char)`. -/
structure SingleChoiceQuestion extends Question
  deriving DecidableEq, Repr

/-- Inherited constructor. -/
def SingleChoiceQuestion.new (questionText : String) : SingleChoiceQuestion :=
  { toQuestion := Question.new questionText }

/-- Inherited `addAnswer`. -/
def SingleChoiceQuestion.addAnswer (q : SingleChoiceQuestion) (option : Char) (text : String)
    (isCorrect : Bool) : SingleChoiceQuestion :=
  { toQuestion := q.toQuestion.addAnswer option text isCorrect }

/-- Inherited `checkAnswer(char)`. -/
def SingleChoiceQuestion.checkAnswer (q : SingleChoiceQuestion) (userAnswer : Char) : Bool :=
  q.toQuestion.checkAnswer userAnswer

/-! ## MultipleChoiceQuestion -/

/-- Class `MultipleChoiceQuestion`: a `Question` without extra state. -/
structure MultipleChoiceQuestion extends Question
  deriving DecidableEq, Repr

/-- Inherited constructor. -/
def MultipleChoiceQuestion.new (questionText : String) : MultipleChoiceQuestion :=
  { toQuestion := Question.new questionText }

/-- Inherited `addAnswer`. -/
def MultipleChoiceQuestion.addAnswer (q : MultipleChoiceQuestion) (option : Char) (text : String)
    (isCorrect : Bool) : MultipleChoiceQuestion :=
  { toQuestion := q.toQuestion.addAnswer option text isCorrect }

/-- `MultipleChoiceQuestion::countCorrectAnswers`. -/
def MultipleChoiceQuestion.countCorrectAnswers (q : MultipleChoiceQuestion) : Nat :=
  count_if (fun answer => answer.isCorrectAnswer) q.getAnswers

/-- `MultipleChoiceQuestion::isCorrectAnswer`. -/
def MultipleChoiceQuestion.isCorrectAnswer (q : MultipleChoiceQuestion) (userAnswer : Char) :
    Bool :=
  match find_if (fun answer => answer.getOption == userAnswer) q.getAnswers with
  | none => false
  | some it => it.isCorrectAnswer

/-- `MultipleChoiceQuestion::checkAnswer`. -/
def MultipleChoiceQuestion.checkAnswer (q : MultipleChoiceQuestion) (userAnswers : List Char) :
    Bool :=
  if userAnswers.length != q.countCorrectAnswers then false
  else all_of (fun userAnswer => q.isCorrectAnswer userAnswer) userAnswers

/-! ## HalfCorrectChoiceQuestion -/

/-- Class `HalfCorrectChoiceQuestion`: a `Question` without extra state. -/
structure HalfCorrectChoiceQuestion extends Question
  deriving DecidableEq, Repr

/-- Inherited constructor. -/
def HalfCorrectChoiceQuestion.new (questionText : String) : HalfCorrectChoiceQuestion :=
  { toQuestion := Question.new questionText }

/-- Inherited `addAnswer`. -/
def HalfCorrectChoiceQuestion.addAnswer (q : HalfCorrectChoiceQuestion) (option : Char)
    (text : String) (isCorrect : Bool) : HalfCorrectChoiceQuestion :=
  { toQuestion := q.toQuestion.addAnswer option text isCorrect }

/-- `HalfCorrectChoiceQuestion::countCorrectAnswers`. -/
def HalfCorrectChoiceQuestion.countCorrectAnswers (q : HalfCorrectChoiceQuestion) : Nat :=
  count_if (fun answer => answer.isCorrectAnswer) q.getAnswers

/-- `HalfCorrectChoiceQuestion::isCorrectAnswer`. -/
def HalfCorrectChoiceQuestion.isCorrectAnswer (q : HalfCorrectChoiceQuestion)
    (userAnswer : Char) : Bool :=
  match find_if (fun answer => answer.getOption == userAnswer) q.getAnswers with
  | none => false
  | some it => it.isCorrectAnswer

/-- The `size_t` expression `numCorrectAnswers / 2 + numCorrectAnswers % 2` of
`HalfCorrectChoiceQuestion::checkAnswer` (unsigned 64-bit addition). -/
def HalfCorrectChoiceQuestion.minCorrectAnswersRequired (numCorrectAnswers : Nat) : Nat :=
  (numCorrectAnswers / 2 + numCorrectAnswers % 2) % SIZE_MOD

/-- `HalfCorrectChoiceQuestion::checkAnswer`. -/
def HalfCorrectChoiceQuestion.checkAnswer (q : HalfCorrectChoiceQuestion)
    (userAnswers : List Char) : Bool :=
  let numCorrectAnswers := q.countCorrectAnswers
  let minCorrectAnswersRequired :=
    HalfCorrectChoiceQuestion.minCorrectAnswersRequired numCorrectAnswers
  if userAnswers.length < minCorrectAnswersRequired then false
  else
    let correctAnswersSelected :=
      count_if (fun userAnswer => q.isCorrectAnswer userAnswer) userAnswers
    decide (correctAnswersSelected ≥ minCorrectAnswersRequired)

/-! ## OpenEndedQuestion -/

/-- Class `OpenEndedQuestion`: a `Question` with the expected text. -/
structure OpenEndedQuestion extends Question where
  correctAnswer : String
  deriving DecidableEq, Repr

/-- Inherited constructor: `correctAnswer` is default-constructed (empty). -/
def OpenEndedQuestion.new (questionText : String) : OpenEndedQuestion :=
  { toQuestion := Question.new questionText, correctAnswer := "" }

/-- `OpenEndedQuestion::setCorrectAnswer`. -/
def OpenEndedQuestion.setCorrectAnswer (q : OpenEndedQuestion) (correctAnswer : String) :
    OpenEndedQuestion :=
  { q with correctAnswer := correctAnswer }

/-- `OpenEndedQuestion::checkAnswer`: `operator==` of `std::string`, which compares
the two character sequences (same size, same characters). -/
def OpenEndedQuestion.checkAnswer (q : OpenEndedQuestion) (userAnswer : String) : Bool :=
  vector_eq userAnswer.data q.correctAnswer.data

/-! ## ChronologyQuestion -/

/-- Class `ChronologyQuestion`: a `Question` with the expected order. -/
structure ChronologyQuestion extends Question where
  correctOrder : List Char
  deriving DecidableEq, Repr

/-- Inherited constructor: `correctOrder` is default-constructed (empty). -/
def ChronologyQuestion.new (questionText : String) : ChronologyQuestion :=
  { toQuestion := Question.new questionText, correctOrder := [] }

/-- Inherited `addAnswer`. -/
def ChronologyQuestion.addAnswer (q : ChronologyQuestion) (option : Char) (text : String)
    (isCorrect : Bool) : ChronologyQuestion :=
  { q with toQuestion := q.toQuestion.addAnswer option text isCorrect }

/-- `ChronologyQuestion::setCorrectOrder`. -/
def ChronologyQuestion.setCorrectOrder (q : ChronologyQuestion) (correctOrder : List Char) :
    ChronologyQuestion :=
  { q with correctOrder := correctOrder }

/-- `ChronologyQuestion::checkAnswer`. -/
def ChronologyQuestion.checkAnswer (q : ChronologyQuestion) (userAnswers : List Char) : Bool :=
  vector_eq userAnswers q.correctOrder

/-! ## Pair and MatchingQuestion -/

/-- Class `Pair`: a left item and the right item it belongs to. -/
structure Pair where
  leftOption : Char
  left : String
  rightOption : Char
  right : String
  deriving DecidableEq, Repr

/-- `Pair::getLeftOption`. -/
def Pair.getLeftOption (p : Pair) : Char := p.leftOption

/-- `Pair::getRightOption`. -/
def Pair.getRightOption (p : Pair) : Char := p.rightOption

/-- Class `MatchingQuestion`: a `Question` with the stored pairs. -/
structure MatchingQuestion extends Question where
  pairs : List Pair
  deriving DecidableEq, Repr

/-- Inherited constructor: `pairs` is default-constructed (empty). -/
def MatchingQuestion.new (questionText : String) : MatchingQuestion :=
  { toQuestion := Question.new questionText, pairs := [] }

/-- `MatchingQuestion::addPair`: `push_back` of a new `Pair`. -/
def MatchingQuestion.addPair (q : MatchingQuestion) (leftOption : Char) (left : String)
    (rightOption : Char) (right : String) : MatchingQuestion :=
  { q with pairs := q.pairs ++ [Pair.mk leftOption left rightOption right] }

/-- `MatchingQuestion::isCorrectPair`: the iterator is not `end()`. -/
def MatchingQuestion.isCorrectPair (q : MatchingQuestion) (userPair : Pair) : Bool :=
  match find_if (fun pair => pair.getLeftOption == userPair.getLeftOption
      && pair.getRightOption == userPair.getRightOption) q.pairs with
  | none => false
  | some _ => true

/-- `MatchingQuestion::checkAnswer`. -/
def MatchingQuestion.checkAnswer (q : MatchingQuestion) (userPairs : List Pair) : Bool :=
  userPairs.length == q.pairs.length
    && all_of (fun userPair => q.isCorrectPair userPair) userPairs

/-! ## The questions built in `main` -/

/-- The question `singleChoiceQuestion` of `main`. -/
def singleChoiceQuestion : SingleChoiceQuestion :=
  (((SingleChoiceQuestion.new "What is the capital of France?").addAnswer 'A' "Berlin" false
    ).addAnswer 'B' "Madrid" false).addAnswer 'C' "Paris" true

/-- The question `multipleChoiceQuestion` of `main`. -/
def multipleChoiceQuestion : MultipleChoiceQuestion :=
  ((((MultipleChoiceQuestion.new "Which of the following are fruits?").addAnswer 'A' "Carrot" false
    ).addAnswer 'B' "Apple" true).addAnswer 'C' "Tomato" false).addAnswer 'D' "Banana" true

/-- The question `openEndedQuestion` of `main`. -/
def openEndedQuestion : OpenEndedQuestion :=
  (OpenEndedQuestion.new "What is the largest planet in our solar system?").setCorrectAnswer
    "Jupiter"

/-- The question `chronologyQuestion` of `main`. -/
def chronologyQuestion : ChronologyQuestion :=
  (((((ChronologyQuestion.new "Put the following events in chronological order").addAnswer
    'A' "Beginning" false).addAnswer 'B' "Growth" false).addAnswer 'C' "Culmination" true
    ).addAnswer 'D' "End" false).setCorrectOrder ['A', 'B', 'C', 'D']

/-- The question `matchingQuestion` of `main`. -/
def matchingQuestion : MatchingQuestion :=
  (((MatchingQuestion.new "Match the following items").addPair 'A' "Item A" '1' "Option 1"
    ).addPair 'B' "Item B" '2' "Option 2").addPair 'C' "Item C" '3' "Option 3"

/-- A response pair as `main` builds it: `Pair(leftOption, "", rightOption, "")`. -/
def userPair (leftOption rightOption : Char) : Pair :=
  Pair.mk leftOption "" rightOption ""

/-- A half-correct-choice question with three options, all flagged correct. -/
def threeCorrectQuestion : HalfCorrectChoiceQuestion :=
  (((HalfCorrectChoiceQuestion.new "Select half of the correct options").addAnswer
    'A' "Option A" true).addAnswer 'B' "Option B" true).addAnswer 'C' "Option C" true

/-- The question `halfCorrectChoiceQuestion` of `main`. -/
def halfCorrectChoiceQuestion : HalfCorrectChoiceQuestion :=
  (((HalfCorrectChoiceQuestion.new "Select half of the correct options").addAnswer
    'A' "Option A" true).addAnswer 'B' "Option B" false).addAnswer 'C' "Option C" true

/-! ## Specification vocabulary -/

/-- The first option of `answers` labelled `l` (in insertion order) exists and is
flagged correct. -/
def FirstMatchCorrect (answers : List Answer) (l : Char) : Prop :=
  ∃ pre a post, answers = pre ++ a :: post ∧ (∀ b ∈ pre, b.option ≠ l) ∧
    a.option = l ∧ a.isCorrect = true

/-- `HalfCorrectChoiceQuestion::checkAnswer` with its early return on the response length
taken out: only the comparison of the number of correct entries with the threshold. -/
def HalfCorrectChoiceQuestion.checkAnswerWithoutLengthTest (q : HalfCorrectChoiceQuestion)
    (userAnswers : List Char) : Bool :=
  let numCorrectAnswers := q.countCorrectAnswers
  let minCorrectAnswersRequired :=
    HalfCorrectChoiceQuestion.minCorrectAnswersRequired numCorrectAnswers
  let correctAnswersSelected :=
    count_if (fun userAnswer => q.isCorrectAnswer userAnswer) userAnswers
  decide (correctAnswersSelected ≥ minCorrectAnswersRequired)

/-- The (leftLabel, rightLabel) combination of a pair. -/
def Pair.labels (p : Pair) : Char × Char := (p.leftOption, p.rightOption)

/-! ## Lemmas on the standard algorithms -/

theorem count_if_eq_countP {α : Type} (p : α → Bool) (l : List α) :
    count_if p l = l.countP p := by
  induction l with
  | nil => rfl
  | cons x xs ih =>
    by_cases h : p x = true
    · simp [count_if, h, ih]
    · simp [count_if, h, ih]

theorem all_of_eq_true_iff {α : Type} (p : α → Bool) (l : List α) :
    all_of p l = true ↔ ∀ x ∈ l, p x = true := by
  induction l with
  | nil => simp [all_of]
  | cons x xs ih =>
    by_cases h : p x = true
    · simp [all_of, h, ih]
    · simp [all_of, h]

theorem find_if_eq_none_iff {α : Type} (p : α → Bool) (l : List α) :
    find_if p l = none ↔ ∀ x ∈ l, p x = false := by
  induction l with
  | nil => simp [find_if]
  | cons x xs ih =>
    by_cases h : p x = true
    · simp [find_if, h]
    · simp [find_if, h, ih]

theorem find_if_eq_some_iff {α : Type} (p : α → Bool) (l : List α) (a : α) :
    find_if p l = some a ↔
      ∃ pre post, l = pre ++ a :: post ∧ (∀ b ∈ pre, p b = false) ∧ p a = true := by
  induction l with
  | nil => simp [find_if]
  | cons x xs ih =>
    by_cases h : p x = true
    · simp only [find_if, h, if_true, Option.some.injEq]
      constructor
      · rintro rfl
        exact ⟨[], xs, rfl, by simp, h⟩
      · rintro ⟨pre, post, hl, hpre, _⟩
        cases pre with
        | nil =>
          simp only [List.nil_append, List.cons.injEq] at hl
          exact hl.1
        | cons y ys =>
          simp only [List.cons_append, List.cons.injEq] at hl
          have := hpre y (by simp)
          rw [← hl.1, h] at this
          cases this
    · simp only [find_if, h, Bool.false_eq_true, if_false, ih]
      constructor
      · rintro ⟨pre, post, hl, hpre, ha⟩
        refine ⟨x :: pre, post, by simp [hl], ?_, ha⟩
        intro b hb
        rcases List.mem_cons.1 hb with rfl | hb
        · simpa using h
        · exact hpre b hb
      · rintro ⟨pre, post, hl, hpre, ha⟩
        cases pre with
        | nil =>
          simp only [List.nil_append, List.cons.injEq] at hl
          rw [hl.1] at h
          exact absurd ha h
        | cons y ys =>
          simp only [List.cons_append, List.cons.injEq] at hl
          exact ⟨ys, post, hl.2, fun b hb => hpre b (by simp [hb]), ha⟩

/-- The label lookup shared by `Question::checkAnswer` and the private
`isCorrectAnswer` functions: the first option with the label decides. -/
theorem lookup_eq_true_iff (answers : List Answer) (l : Char) :
    (match find_if (fun answer => answer.getOption == l) answers with
      | none => false
      | some it => it.isCorrectAnswer) = true ↔ FirstMatchCorrect answers l := by
  unfold FirstMatchCorrect
  constructor
  · intro h
    cases hf : find_if (fun answer => answer.getOption == l) answers with
    | none => rw [hf] at h; cases h
    | some a =>
      rw [hf] at h
      obtain ⟨pre, post, hl, hpre, ha⟩ := (find_if_eq_some_iff _ _ _).1 hf
      refine ⟨pre, a, post, hl, ?_, by simpa [Answer.getOption] using ha, h⟩
      intro b hb
      simpa [Answer.getOption] using hpre b hb
  · rintro ⟨pre, a, post, hl, hpre, ha, hc⟩
    have hf : find_if (fun answer => answer.getOption == l) answers = some a :=
      (find_if_eq_some_iff _ _ _).2
        ⟨pre, post, hl, fun b hb => by simpa [Answer.getOption] using hpre b hb,
          by simpa [Answer.getOption] using ha⟩
    rw [hf]
    exact hc

theorem Question.question_checkAnswer_eq_true_iff (q : Question) (l : Char) :
    q.checkAnswer l = true ↔ FirstMatchCorrect q.answers l :=
  lookup_eq_true_iff q.answers l

instance FirstMatchCorrect.instDecidable (answers : List Answer) (l : Char) :
    Decidable (FirstMatchCorrect answers l) :=
  decidable_of_iff _ (lookup_eq_true_iff answers l)

theorem MultipleChoiceQuestion.multipleChoice_isCorrectAnswer_eq_true_iff (q : MultipleChoiceQuestion)
    (l : Char) : q.isCorrectAnswer l = true ↔ FirstMatchCorrect q.answers l :=
  lookup_eq_true_iff q.answers l

theorem HalfCorrectChoiceQuestion.halfCorrect_isCorrectAnswer_eq_true_iff (q : HalfCorrectChoiceQuestion)
    (l : Char) : q.isCorrectAnswer l = true ↔ FirstMatchCorrect q.answers l :=
  lookup_eq_true_iff q.answers l

/-! ## Question::checkAnswer -/

/-- C1: `Question::checkAnswer(l)` is true exactly when some stored option has label `l`
and the first such option in insertion order is flagged correct; it is false when no stored
option has label `l`; and for an option `a` preceded by no option with its label, the
verdict on `a`'s label is `a`'s flag, whatever options with that label follow. -/
theorem Question.checkAnswer_first_match (q : Question) (l : Char) :
    (q.checkAnswer l = true ↔
      ∃ pre a post, q.answers = pre ++ a :: post ∧ (∀ b ∈ pre, b.option ≠ l) ∧
        a.option = l ∧ a.isCorrect = true) ∧
    ((∀ a ∈ q.answers, a.option ≠ l) → q.checkAnswer l = false) ∧
    (∀ pre a post, q.answers = pre ++ a :: post → a.option = l →
      (∀ b ∈ pre, b.option ≠ l) → q.checkAnswer l = a.isCorrect) := by
  refine ⟨Question.question_checkAnswer_eq_true_iff q l, ?_, ?_⟩
  · intro h
    have hf : find_if (fun answer => answer.getOption == l) q.answers = none :=
      (find_if_eq_none_iff _ _).2 (fun a ha => by simpa [Answer.getOption] using h a ha)
    simp [Question.checkAnswer, hf]
  · intro pre a post hl ha hpre
    have hf : find_if (fun answer => answer.getOption == l) q.answers = some a :=
      (find_if_eq_some_iff _ _ _).2
        ⟨pre, post, hl, fun b hb => by simpa [Answer.getOption] using hpre b hb,
          by simpa [Answer.getOption] using ha⟩
    simp [Question.checkAnswer, hf, Answer.isCorrectAnswer]

/-- C1 at a question with a duplicated label: options A(false), A(true), B(true). The
label `Z` is not stored and is graded false; the first `A` (flagged false) decides `A`. -/
theorem Question.checkAnswer_first_match_witness :
    (Question.mk "q" [⟨'A', "x", false⟩, ⟨'A', "y", true⟩, ⟨'B', "z", true⟩]).checkAnswer 'Z'
        = false ∧
    (Question.mk "q" [⟨'A', "x", false⟩, ⟨'A', "y", true⟩, ⟨'B', "z", true⟩]).checkAnswer 'A'
        = false :=
  ⟨(Question.checkAnswer_first_match _ 'Z').2.1 (by decide),
   (Question.checkAnswer_first_match
      (Question.mk "q" [⟨'A', "x", false⟩, ⟨'A', "y", true⟩, ⟨'B', "z", true⟩]) 'A').2.2
      [] ⟨'A', "x", false⟩ [⟨'A', "y", true⟩, ⟨'B', "z", true⟩] rfl rfl (by decide)⟩

/-! ## MultipleChoiceQuestion::checkAnswer -/

theorem MultipleChoiceQuestion.multipleChoice_countCorrectAnswers_eq (q : MultipleChoiceQuestion) :
    q.countCorrectAnswers = (q.answers.filter (fun a => a.isCorrect)).length := by
  unfold MultipleChoiceQuestion.countCorrectAnswers Question.getAnswers
  rw [count_if_eq_countP, List.countP_eq_length_filter]
  rfl

theorem MultipleChoiceQuestion.multipleChoice_checkAnswer_eq_true_iff (q : MultipleChoiceQuestion)
    (r : List Char) :
    q.checkAnswer r = true ↔
      r.length = (q.answers.filter (fun a => a.isCorrect)).length ∧
        ∀ l ∈ r, FirstMatchCorrect q.answers l := by
  unfold MultipleChoiceQuestion.checkAnswer
  rw [← MultipleChoiceQuestion.multipleChoice_countCorrectAnswers_eq]
  by_cases h : r.length = q.countCorrectAnswers
  · simp [h, all_of_eq_true_iff, MultipleChoiceQuestion.multipleChoice_isCorrectAnswer_eq_true_iff]
  · simp [h]

/-- C2: `MultipleChoiceQuestion::checkAnswer` is true exactly when the response has as many
entries as there are stored options flagged correct and every entry is individually correct
(the first stored option with that label is flagged correct). On the question of `main`
(A false, B true, C false, D true) the response [B, D] is graded true and [B] false. -/
theorem MultipleChoiceQuestion.multipleChoice_checkAnswer_spec :
    (∀ (q : MultipleChoiceQuestion) (r : List Char),
      q.checkAnswer r = true ↔
        r.length = (q.answers.filter (fun a => a.isCorrect)).length ∧
          ∀ l ∈ r, FirstMatchCorrect q.answers l) ∧
    multipleChoiceQuestion.answers =
      [⟨'A', "Carrot", false⟩, ⟨'B', "Apple", true⟩, ⟨'C', "Tomato", false⟩,
        ⟨'D', "Banana", true⟩] ∧
    multipleChoiceQuestion.checkAnswer ['B', 'D'] = true ∧
    multipleChoiceQuestion.checkAnswer ['B'] = false :=
  ⟨MultipleChoiceQuestion.multipleChoice_checkAnswer_eq_true_iff, by decide, by decide, by decide⟩

/-- C2 used at the question of `main`: [D, B] has length 2 and both labels are
individually correct, so it is graded true. -/
theorem MultipleChoiceQuestion.multipleChoice_checkAnswer_spec_witness :
    multipleChoiceQuestion.checkAnswer ['D', 'B'] = true :=
  (MultipleChoiceQuestion.multipleChoice_checkAnswer_spec.1 multipleChoiceQuestion ['D', 'B']).2
    ⟨by decide, by decide⟩

/-! ## SingleChoiceQuestion -/

theorem SingleChoiceQuestion.singleChoice_checkAnswer_eq_true_iff_of_nodup (q : SingleChoiceQuestion)
    (l : Char) (h : (q.answers.map Answer.option).Nodup) :
    q.checkAnswer l = true ↔ ∃ a ∈ q.answers, a.option = l ∧ a.isCorrect = true := by
  unfold SingleChoiceQuestion.checkAnswer
  rw [Question.question_checkAnswer_eq_true_iff]
  constructor
  · rintro ⟨pre, a, post, hl, _, ha, hc⟩
    exact ⟨a, by simp [hl], ha, hc⟩
  · rintro ⟨a, hmem, ha, hc⟩
    obtain ⟨pre, post, hl⟩ := List.append_of_mem hmem
    refine ⟨pre, a, post, hl, ?_, ha, hc⟩
    intro b hb hbl
    have hinj := List.inj_on_of_nodup_map h
    have hbmem : b ∈ q.answers := by simp [hl, hb]
    have hba : b = a := hinj hbmem hmem (hbl.trans ha.symm)
    subst hba
    rw [hl, List.map_append, List.map_cons] at h
    have hdis := (List.nodup_append.1 h).2.2
    exact hdis (List.mem_map_of_mem _ hb) (by simp)

/-- C6: for a single-choice question whose option labels are pairwise distinct, the
inherited `checkAnswer(char)` is true exactly when some stored option has the label and is
flagged correct. On the question of `main` (A false, B false, C true) the label C is graded
true, A false and the label Z, which is not stored, false. -/
theorem SingleChoiceQuestion.singleChoice_checkAnswer_spec :
    (∀ (q : SingleChoiceQuestion) (l : Char), (q.answers.map Answer.option).Nodup →
      (q.checkAnswer l = true ↔ ∃ a ∈ q.answers, a.option = l ∧ a.isCorrect = true)) ∧
    singleChoiceQuestion.answers =
      [⟨'A', "Berlin", false⟩, ⟨'B', "Madrid", false⟩, ⟨'C', "Paris", true⟩] ∧
    singleChoiceQuestion.checkAnswer 'C' = true ∧
    singleChoiceQuestion.checkAnswer 'A' = false ∧
    singleChoiceQuestion.checkAnswer 'Z' = false :=
  ⟨SingleChoiceQuestion.singleChoice_checkAnswer_eq_true_iff_of_nodup, by decide, by decide, by decide,
    by decide⟩

/-- C6 used at the question of `main`: its labels A, B, C are pairwise distinct and the
option C is stored and flagged correct, so C is graded true. -/
theorem SingleChoiceQuestion.singleChoice_checkAnswer_spec_witness :
    (singleChoiceQuestion.answers.map Answer.option).Nodup ∧
    singleChoiceQuestion.checkAnswer 'C' = true :=
  ⟨by decide,
   (SingleChoiceQuestion.singleChoice_checkAnswer_spec.1 singleChoiceQuestion 'C' (by decide)).2
     ⟨⟨'C', "Paris", true⟩, by decide, rfl, rfl⟩⟩

/-! ## HalfCorrectChoiceQuestion::checkAnswer -/

theorem HalfCorrectChoiceQuestion.halfCorrect_countCorrectAnswers_eq (q : HalfCorrectChoiceQuestion) :
    q.countCorrectAnswers = (q.answers.filter (fun a => a.isCorrect)).length := by
  unfold HalfCorrectChoiceQuestion.countCorrectAnswers Question.getAnswers
  rw [count_if_eq_countP, List.countP_eq_length_filter]
  rfl

theorem HalfCorrectChoiceQuestion.halfCorrect_countCorrectAnswers_le (q : HalfCorrectChoiceQuestion) :
    q.countCorrectAnswers ≤ q.answers.length := by
  rw [HalfCorrectChoiceQuestion.halfCorrect_countCorrectAnswers_eq]
  exact List.length_filter_le _ _

theorem HalfCorrectChoiceQuestion.correctAnswersSelected_eq (q : HalfCorrectChoiceQuestion)
    (r : List Char) :
    count_if (fun userAnswer => q.isCorrectAnswer userAnswer) r =
      (r.filter (fun l => decide (FirstMatchCorrect q.answers l))).length := by
  rw [count_if_eq_countP, List.countP_eq_length_filter]
  congr 1
  apply List.filter_congr
  intro l _
  rw [Bool.eq_iff_iff]
  simp [HalfCorrectChoiceQuestion.halfCorrect_isCorrectAnswer_eq_true_iff]

theorem HalfCorrectChoiceQuestion.minCorrectAnswersRequired_eq (total : Nat)
    (h : total < SIZE_MOD) :
    HalfCorrectChoiceQuestion.minCorrectAnswersRequired total = total / 2 + total % 2 := by
  unfold HalfCorrectChoiceQuestion.minCorrectAnswersRequired
  apply Nat.mod_eq_of_lt
  omega

theorem HalfCorrectChoiceQuestion.checkAnswer_of_required (q : HalfCorrectChoiceQuestion)
    (r : List Char) (hsize : q.answers.length < SIZE_MOD) (total required : Nat)
    (htotal : total = (q.answers.filter (fun a => a.isCorrect)).length)
    (hrequired : required = total / 2 + total % 2) :
    (r.length < required → q.checkAnswer r = false) ∧
    (required ≤ r.length →
      (q.checkAnswer r = true ↔
        required ≤ (r.filter (fun l => decide (FirstMatchCorrect q.answers l))).length)) := by
  have hle := HalfCorrectChoiceQuestion.halfCorrect_countCorrectAnswers_le q
  have hreq : HalfCorrectChoiceQuestion.minCorrectAnswersRequired q.countCorrectAnswers
      = required := by
    rw [HalfCorrectChoiceQuestion.minCorrectAnswersRequired_eq _ (by omega), hrequired, htotal,
      HalfCorrectChoiceQuestion.halfCorrect_countCorrectAnswers_eq]
  unfold HalfCorrectChoiceQuestion.checkAnswer
  simp only [hreq, HalfCorrectChoiceQuestion.correctAnswersSelected_eq]
  constructor
  · intro hlt
    simp [hlt]
  · intro hge
    simp [Nat.not_lt.2 hge]

/-- C3: for a half-correct-choice question (its option vector has a size representable in
`size_t`, as every vector has), with `total` the number of stored options flagged correct
and `required = total / 2 + total % 2`: `HalfCorrectChoiceQuestion::checkAnswer` is false
when the response is shorter than `required`, and otherwise it is true exactly when at
least `required` response entries, counted with multiplicity, are individually correct.
With three options flagged correct, A and C among them, `required` is 2, [A, C] is graded
true and [A] is graded false. -/
theorem HalfCorrectChoiceQuestion.halfCorrect_checkAnswer_spec :
    (∀ (q : HalfCorrectChoiceQuestion) (r : List Char) (total required : Nat),
      q.answers.length < SIZE_MOD →
      total = (q.answers.filter (fun a => a.isCorrect)).length →
      required = total / 2 + total % 2 →
      (r.length < required → q.checkAnswer r = false) ∧
      (required ≤ r.length →
        (q.checkAnswer r = true ↔
          required ≤
            (r.filter (fun l => decide (FirstMatchCorrect q.answers l))).length))) ∧
    (∀ q : HalfCorrectChoiceQuestion, q.answers.length < SIZE_MOD →
      (q.answers.filter (fun a => a.isCorrect)).length = 3 →
      FirstMatchCorrect q.answers 'A' → FirstMatchCorrect q.answers 'C' →
      HalfCorrectChoiceQuestion.minCorrectAnswersRequired q.countCorrectAnswers = 2 ∧
      q.checkAnswer ['A', 'C'] = true ∧ q.checkAnswer ['A'] = false) := by
  refine ⟨fun q r total required hsize htotal hrequired =>
    HalfCorrectChoiceQuestion.checkAnswer_of_required q r hsize total required htotal hrequired,
    ?_⟩
  intro q hsize h3 hA hC
  have hAC := HalfCorrectChoiceQuestion.checkAnswer_of_required q ['A', 'C'] hsize 3 2
    h3.symm rfl
  have hA1 := HalfCorrectChoiceQuestion.checkAnswer_of_required q ['A'] hsize 3 2 h3.symm rfl
  refine ⟨?_, ?_, hA1.1 (by simp)⟩
  · rw [HalfCorrectChoiceQuestion.minCorrectAnswersRequired_eq _
      (lt_of_le_of_lt (HalfCorrectChoiceQuestion.halfCorrect_countCorrectAnswers_le q) hsize),
      HalfCorrectChoiceQuestion.halfCorrect_countCorrectAnswers_eq, h3]
  · refine (hAC.2 (by simp)).2 ?_
    simp [List.filter, hA, hC]

/-- C3 used at a question with the options A, B, C all flagged correct: `required` is 2,
the response [A, C] is graded true and [A] is graded false. -/
theorem HalfCorrectChoiceQuestion.halfCorrect_checkAnswer_spec_witness :
    threeCorrectQuestion.answers =
      [⟨'A', "Option A", true⟩, ⟨'B', "Option B", true⟩, ⟨'C', "Option C", true⟩] ∧
    threeCorrectQuestion.answers.length < SIZE_MOD ∧
    HalfCorrectChoiceQuestion.minCorrectAnswersRequired
      threeCorrectQuestion.countCorrectAnswers = 2 ∧
    threeCorrectQuestion.checkAnswer ['A', 'C'] = true ∧
    threeCorrectQuestion.checkAnswer ['A'] = false :=
  ⟨by decide, by decide,
    HalfCorrectChoiceQuestion.halfCorrect_checkAnswer_spec.2 threeCorrectQuestion (by decide) (by decide)
      (by decide) (by decide)⟩

/-- C9: for every `size_t` value `total`, the sum `total / 2 + total % 2` stays below
`2 ^ 64`, so the threshold computed in 64-bit arithmetic is that sum; it is the ceiling of
`total / 2`, that is the least `r` with `2 * r ≥ total`. For 3 it is 2 and for 4 it is 2. -/
theorem HalfCorrectChoiceQuestion.minCorrectAnswersRequired_spec :
    (∀ total : Nat, total < SIZE_MOD →
      total / 2 + total % 2 < SIZE_MOD ∧
      HalfCorrectChoiceQuestion.minCorrectAnswersRequired total = total / 2 + total % 2 ∧
      HalfCorrectChoiceQuestion.minCorrectAnswersRequired total = ⌈(total : ℚ) / 2⌉₊ ∧
      2 * HalfCorrectChoiceQuestion.minCorrectAnswersRequired total ≥ total ∧
      (∀ r : Nat, 2 * r ≥ total →
        HalfCorrectChoiceQuestion.minCorrectAnswersRequired total ≤ r)) ∧
    HalfCorrectChoiceQuestion.minCorrectAnswersRequired 3 = 2 ∧
    HalfCorrectChoiceQuestion.minCorrectAnswersRequired 4 = 2 := by
  refine ⟨?_, by decide, by decide⟩
  intro total h
  have heq := HalfCorrectChoiceQuestion.minCorrectAnswersRequired_eq total h
  refine ⟨by omega, heq, ?_, by omega, fun r hr => by omega⟩
  rw [heq]
  apply le_antisymm
  · have hx : (total : ℚ) / 2 ≤ ((⌈(total : ℚ) / 2⌉₊ : Nat) : ℚ) := Nat.le_ceil _
    have h2 : (total : ℚ) ≤ ((2 * ⌈(total : ℚ) / 2⌉₊ : Nat) : ℚ) := by
      push_cast
      linarith
    have h3 : total ≤ 2 * ⌈(total : ℚ) / 2⌉₊ := by exact_mod_cast h2
    omega
  · rw [Nat.ceil_le]
    have h2 : total ≤ 2 * (total / 2 + total % 2) := by omega
    have h3 : (total : ℚ) ≤ ((2 * (total / 2 + total % 2) : Nat) : ℚ) := by exact_mod_cast h2
    push_cast at h3 ⊢
    linarith

/-- C9 used at the largest `size_t` value: the threshold is `2 ^ 63`, without overflow. -/
theorem HalfCorrectChoiceQuestion.minCorrectAnswersRequired_spec_witness :
    2 ^ 64 - 1 < SIZE_MOD ∧
    HalfCorrectChoiceQuestion.minCorrectAnswersRequired (2 ^ 64 - 1) = 2 ^ 63 :=
  ⟨by decide,
    (HalfCorrectChoiceQuestion.minCorrectAnswersRequired_spec.1 (2 ^ 64 - 1)
      (by decide)).2.1.trans (by decide)⟩

/-- C10 as stated fails: on the question of `main` (A false, B true, C false, D true) the
response [B, D, B] is not graded true. -/
theorem MultipleChoiceQuestion.checkAnswer_BDB_not_true :
    ¬ (multipleChoiceQuestion.checkAnswer ['B', 'D', 'B'] = true) := by
  decide

/-- C10 amended: on the question of `main` (A false, B true, C false, D true), which has
two options flagged correct, the response [B, D, B] of length three is graded false. -/
theorem MultipleChoiceQuestion.checkAnswer_BDB_false :
    multipleChoiceQuestion.answers =
      [⟨'A', "Carrot", false⟩, ⟨'B', "Apple", true⟩, ⟨'C', "Tomato", false⟩,
        ⟨'D', "Banana", true⟩] ∧
    multipleChoiceQuestion.countCorrectAnswers = 2 ∧
    multipleChoiceQuestion.checkAnswer ['B', 'D', 'B'] = false := by
  decide

/-! ## MatchingQuestion::checkAnswer -/

theorem MatchingQuestion.isCorrectPair_eq_true_iff (q : MatchingQuestion) (u : Pair) :
    q.isCorrectPair u = true ↔
      ∃ p ∈ q.pairs, p.leftOption = u.leftOption ∧ p.rightOption = u.rightOption := by
  unfold MatchingQuestion.isCorrectPair
  cases hf : find_if (fun pair => pair.getLeftOption == u.getLeftOption
      && pair.getRightOption == u.getRightOption) q.pairs with
  | none =>
    have hnone := (find_if_eq_none_iff _ _).1 hf
    simp only [Bool.false_eq_true, false_iff, not_exists, not_and]
    intro p hp hl hr
    have := hnone p hp
    simp [Pair.getLeftOption, Pair.getRightOption, hl, hr] at this
  | some p =>
    obtain ⟨pre, post, hl, _, hp⟩ := (find_if_eq_some_iff _ _ _).1 hf
    simp only [true_iff]
    refine ⟨p, by simp [hl], ?_⟩
    simpa [Pair.getLeftOption, Pair.getRightOption] using hp

theorem MatchingQuestion.matching_checkAnswer_eq_true_iff (q : MatchingQuestion) (r : List Pair) :
    q.checkAnswer r = true ↔
      r.length = q.pairs.length ∧
        ∀ u ∈ r, ∃ p ∈ q.pairs, p.leftOption = u.leftOption ∧ p.rightOption = u.rightOption := by
  unfold MatchingQuestion.checkAnswer
  simp only [Bool.and_eq_true, beq_iff_eq, all_of_eq_true_iff,
    MatchingQuestion.isCorrectPair_eq_true_iff]

theorem MatchingQuestion.matching_checkAnswer_eq_true_iff_labels (q : MatchingQuestion)
    (r : List Pair) :
    q.checkAnswer r = true ↔
      (r.map Pair.labels).length = (q.pairs.map Pair.labels).length ∧
        ∀ x ∈ r.map Pair.labels, x ∈ q.pairs.map Pair.labels := by
  rw [MatchingQuestion.matching_checkAnswer_eq_true_iff]
  simp only [List.length_map, List.mem_map, Pair.labels, forall_exists_index, and_imp,
    forall_apply_eq_imp_iff₂, Prod.mk.injEq]

/-- C4: `MatchingQuestion::checkAnswer` is true exactly when the response has as many pairs
as are stored and every response pair has the left label and the right label of some stored
pair; two questions with the same stored label combinations grade two responses with the
same label combinations alike, whatever the text fields. With the stored pairs (A,1), (B,2),
(C,3) of `main` the response [(A,1), (B,2)] is graded false. -/
theorem MatchingQuestion.matching_checkAnswer_spec :
    (∀ (q : MatchingQuestion) (r : List Pair),
      q.checkAnswer r = true ↔
        r.length = q.pairs.length ∧
          ∀ u ∈ r, ∃ p ∈ q.pairs,
            p.leftOption = u.leftOption ∧ p.rightOption = u.rightOption) ∧
    (∀ (q q' : MatchingQuestion) (r r' : List Pair),
      q.pairs.map Pair.labels = q'.pairs.map Pair.labels →
      r.map Pair.labels = r'.map Pair.labels →
      q.checkAnswer r = q'.checkAnswer r') ∧
    matchingQuestion.pairs.map Pair.labels = [('A', '1'), ('B', '2'), ('C', '3')] ∧
    matchingQuestion.checkAnswer [userPair 'A' '1', userPair 'B' '2'] = false := by
  refine ⟨MatchingQuestion.matching_checkAnswer_eq_true_iff, ?_, by decide, by decide⟩
  intro q q' r r' hq hr
  rw [Bool.eq_iff_iff, MatchingQuestion.matching_checkAnswer_eq_true_iff_labels,
    MatchingQuestion.matching_checkAnswer_eq_true_iff_labels, hq, hr]

/-- C4 used at the question of `main`: a response whose pairs carry other texts than the
stored pairs and than the pairs `main` builds is graded like the response of `main`. -/
theorem MatchingQuestion.matching_checkAnswer_spec_witness :
    matchingQuestion.checkAnswer
        [⟨'C', "left", '3', "right"⟩, ⟨'A', "Item A", '1', "x"⟩, ⟨'B', "y", '2', ""⟩] =
      matchingQuestion.checkAnswer [userPair 'C' '3', userPair 'A' '1', userPair 'B' '2'] :=
  MatchingQuestion.matching_checkAnswer_spec.2.1 matchingQuestion matchingQuestion _ _ rfl (by decide)

/-- C5: a response whose label combinations are a permutation of the stored label
combinations is graded true by `MatchingQuestion::checkAnswer`, and reordering a response
does not change its verdict. With the stored pairs (A,1), (B,2), (C,3) of `main` each of the
six orderings of [(A,1), (B,2), (C,3)] is graded true. -/
theorem MatchingQuestion.checkAnswer_perm :
    (∀ (q : MatchingQuestion) (r : List Pair),
      (r.map Pair.labels).Perm (q.pairs.map Pair.labels) → q.checkAnswer r = true) ∧
    (∀ (q : MatchingQuestion) (r r' : List Pair),
      r.Perm r' → q.checkAnswer r = q.checkAnswer r') ∧
    matchingQuestion.pairs.map Pair.labels = [('A', '1'), ('B', '2'), ('C', '3')] ∧
    matchingQuestion.checkAnswer [userPair 'A' '1', userPair 'B' '2', userPair 'C' '3'] = true ∧
    matchingQuestion.checkAnswer [userPair 'A' '1', userPair 'C' '3', userPair 'B' '2'] = true ∧
    matchingQuestion.checkAnswer [userPair 'B' '2', userPair 'A' '1', userPair 'C' '3'] = true ∧
    matchingQuestion.checkAnswer [userPair 'B' '2', userPair 'C' '3', userPair 'A' '1'] = true ∧
    matchingQuestion.checkAnswer [userPair 'C' '3', userPair 'A' '1', userPair 'B' '2'] = true ∧
    matchingQuestion.checkAnswer [userPair 'C' '3', userPair 'B' '2', userPair 'A' '1'] = true := by
  refine ⟨?_, ?_, by decide, by decide, by decide, by decide, by decide, by decide, by decide⟩
  · intro q r h
    rw [MatchingQuestion.matching_checkAnswer_eq_true_iff_labels]
    exact ⟨h.length_eq, fun x hx => h.subset hx⟩
  · intro q r r' h
    rw [Bool.eq_iff_iff, MatchingQuestion.matching_checkAnswer_eq_true_iff_labels,
      MatchingQuestion.matching_checkAnswer_eq_true_iff_labels]
    have hm : (r.map Pair.labels).Perm (r'.map Pair.labels) := h.map _
    rw [hm.length_eq]
    constructor
    · rintro ⟨hlen, hall⟩
      exact ⟨hlen, fun x hx => hall x (hm.symm.subset hx)⟩
    · rintro ⟨hlen, hall⟩
      exact ⟨hlen, fun x hx => hall x (hm.subset hx)⟩

/-- C5 used at the question of `main`: [(B,2), (C,3), (A,1)] is a permutation of the
stored label combinations, so it is graded true, and so is its reordering. -/
theorem MatchingQuestion.checkAnswer_perm_witness :
    ([userPair 'B' '2', userPair 'C' '3', userPair 'A' '1'].map Pair.labels).Perm
        (matchingQuestion.pairs.map Pair.labels) ∧
    matchingQuestion.checkAnswer [userPair 'B' '2', userPair 'C' '3', userPair 'A' '1'] = true ∧
    matchingQuestion.checkAnswer [userPair 'B' '2', userPair 'C' '3', userPair 'A' '1'] =
      matchingQuestion.checkAnswer [userPair 'C' '3', userPair 'B' '2', userPair 'A' '1'] :=
  ⟨by decide,
    MatchingQuestion.checkAnswer_perm.1 matchingQuestion
      [userPair 'B' '2', userPair 'C' '3', userPair 'A' '1'] (by decide),
    MatchingQuestion.checkAnswer_perm.2.1 matchingQuestion
      [userPair 'B' '2', userPair 'C' '3', userPair 'A' '1']
      [userPair 'C' '3', userPair 'B' '2', userPair 'A' '1'] (by decide)⟩

/-! ## ChronologyQuestion::checkAnswer and OpenEndedQuestion::checkAnswer -/

theorem equal_eq_true_iff {α : Type} [BEq α] [LawfulBEq α] (a b : List α)
    (h : a.length = b.length) : equal a b = true ↔ a = b := by
  induction a generalizing b with
  | nil =>
    cases b with
    | nil => simp [equal]
    | cons y ys => simp at h
  | cons x xs ih =>
    cases b with
    | nil => simp at h
    | cons y ys =>
      simp only [List.length_cons, Nat.add_right_cancel_iff] at h
      by_cases hxy : x = y
      · simp [equal, hxy, ih ys h]
      · simp [equal, hxy]

theorem vector_eq_eq_true_iff {α : Type} [BEq α] [LawfulBEq α] (a b : List α) :
    vector_eq a b = true ↔ a = b := by
  unfold vector_eq
  by_cases h : a.length = b.length
  · simp [h, equal_eq_true_iff a b h]
  · have hne : a ≠ b := fun hab => h (by rw [hab])
    simp [h, hne]

theorem list_eq_iff_positions {α : Type} (a b : List α) :
    a = b ↔ a.length = b.length ∧ ∀ i, i < a.length → a[i]? = b[i]? := by
  constructor
  · rintro rfl
    exact ⟨rfl, fun _ _ => rfl⟩
  · rintro ⟨hlen, hpos⟩
    apply List.ext_getElem?
    intro i
    by_cases hi : i < a.length
    · exact hpos i hi
    · rw [List.getElem?_eq_none (by omega), List.getElem?_eq_none (by omega)]

/-- C7: `ChronologyQuestion::checkAnswer` is true exactly when the response has the length
of the stored `correctOrder` and agrees with it at every position; two questions with the
same `correctOrder` give the same verdict whatever their options and flags. With the stored
order [A, B, C, D] of `main`, [A, B, C, D] is graded true and [A, B, D, C] false. -/
theorem ChronologyQuestion.chronology_checkAnswer_spec :
    (∀ (q : ChronologyQuestion) (r : List Char),
      q.checkAnswer r = true ↔
        r.length = q.correctOrder.length ∧
          ∀ i, i < r.length → r[i]? = q.correctOrder[i]?) ∧
    (∀ (q q' : ChronologyQuestion) (r : List Char),
      q.correctOrder = q'.correctOrder → q.checkAnswer r = q'.checkAnswer r) ∧
    (∀ (q : ChronologyQuestion) (option : Char) (text : String) (isCorrect : Bool)
        (r : List Char),
      (q.addAnswer option text isCorrect).checkAnswer r = q.checkAnswer r) ∧
    chronologyQuestion.correctOrder = ['A', 'B', 'C', 'D'] ∧
    chronologyQuestion.checkAnswer ['A', 'B', 'C', 'D'] = true ∧
    chronologyQuestion.checkAnswer ['A', 'B', 'D', 'C'] = false := by
  refine ⟨?_, ?_, ?_, by decide, by decide, by decide⟩
  · intro q r
    unfold ChronologyQuestion.checkAnswer
    rw [vector_eq_eq_true_iff, list_eq_iff_positions]
  · intro q q' r h
    unfold ChronologyQuestion.checkAnswer
    rw [h]
  · intro q option text isCorrect r
    rfl

/-- C7 used at the question of `main` and at a question with the same order whose options
are all flagged the other way round: both grade [A, B, C, D] alike. -/
theorem ChronologyQuestion.chronology_checkAnswer_spec_witness :
    chronologyQuestion.checkAnswer ['A', 'B', 'C', 'D'] =
      (ChronologyQuestion.mk
        (Question.mk "other" [⟨'A', "Beginning", true⟩, ⟨'D', "End", true⟩])
        ['A', 'B', 'C', 'D']).checkAnswer ['A', 'B', 'C', 'D'] :=
  ChronologyQuestion.chronology_checkAnswer_spec.2.1 chronologyQuestion _ ['A', 'B', 'C', 'D'] (by decide)

/-- C8: after `setCorrectAnswer(s)`, also when it replaces an earlier answer,
`OpenEndedQuestion::checkAnswer` is true exactly when the response is the same character
sequence as `s`. After `setCorrectAnswer("Jupiter")` as in `main`, "Jupiter" is graded
true, "jupiter" false and " Jupiter" false. -/
theorem OpenEndedQuestion.openEnded_checkAnswer_spec :
    (∀ (q : OpenEndedQuestion) (s r : String),
      (q.setCorrectAnswer s).checkAnswer r = true ↔ r = s) ∧
    (∀ (q : OpenEndedQuestion) (s r : String),
      (q.setCorrectAnswer s).checkAnswer r = true ↔ r.data = s.data) ∧
    (∀ (q : OpenEndedQuestion) (s₁ s₂ r : String),
      ((q.setCorrectAnswer s₁).setCorrectAnswer s₂).checkAnswer r = true ↔ r = s₂) ∧
    openEndedQuestion.correctAnswer = "Jupiter" ∧
    openEndedQuestion.checkAnswer "Jupiter" = true ∧
    openEndedQuestion.checkAnswer "jupiter" = false ∧
    openEndedQuestion.checkAnswer " Jupiter" = false := by
  have key : ∀ (q : OpenEndedQuestion) (s r : String),
      (q.setCorrectAnswer s).checkAnswer r = true ↔ r.data = s.data := by
    intro q s r
    unfold OpenEndedQuestion.checkAnswer OpenEndedQuestion.setCorrectAnswer
    rw [vector_eq_eq_true_iff]
  refine ⟨?_, key, ?_, by decide, by decide, by decide, by decide⟩
  · intro q s r
    rw [key, String.ext_iff]
  · intro q s₁ s₂ r
    rw [key, String.ext_iff]

/-- C8 used at the question of `main`: the response "Jupiter" is graded true. -/
theorem OpenEndedQuestion.openEnded_checkAnswer_spec_witness :
    ((OpenEndedQuestion.new "What is the largest planet in our solar system?").setCorrectAnswer
      "Jupiter").checkAnswer "Jupiter" = true :=
  (OpenEndedQuestion.openEnded_checkAnswer_spec.1 _ "Jupiter" "Jupiter").2 rfl

/-! ## MatchingQuestion::checkAnswer on a response with a repeated pair -/

/-- C11, the code at the failing input: with the stored pairs (A,1), (B,2), (C,3) of `main`
the response [(A,1), (A,1), (B,2)] has the stored length 3 and each of its pairs is found
among the stored pairs, so `MatchingQuestion::checkAnswer` returns true, although the
stored pair (C,3) is matched by no entry of the response. The claim expects false, as does
the source comment "Check if the user's pairs match all correct pairs". -/
theorem MatchingQuestion.checkAnswer_AAB_true :
    matchingQuestion.pairs.map Pair.labels = [('A', '1'), ('B', '2'), ('C', '3')] ∧
    [userPair 'A' '1', userPair 'A' '1', userPair 'B' '2'].length = matchingQuestion.pairs.length ∧
    matchingQuestion.isCorrectPair (userPair 'A' '1') = true ∧
    matchingQuestion.isCorrectPair (userPair 'B' '2') = true ∧
    ('C', '3') ∉ [userPair 'A' '1', userPair 'A' '1', userPair 'B' '2'].map Pair.labels ∧
    matchingQuestion.checkAnswer [userPair 'A' '1', userPair 'A' '1', userPair 'B' '2']
      = true := by
  decide

/-! ## Question::addAnswer -/

theorem find_if_append_of_some {α : Type} (p : α → Bool) (l₁ l₂ : List α) (a : α)
    (h : find_if p l₁ = some a) : find_if p (l₁ ++ l₂) = some a := by
  induction l₁ with
  | nil => simp [find_if] at h
  | cons x xs ih =>
    by_cases hx : p x = true
    · simpa [find_if, hx] using h
    · simp only [find_if, hx, Bool.false_eq_true, if_false] at h
      simp [find_if, hx, ih h]

theorem find_if_append_of_none {α : Type} (p : α → Bool) (l₁ l₂ : List α)
    (h : find_if p l₁ = none) : find_if p (l₁ ++ l₂) = find_if p l₂ := by
  induction l₁ with
  | nil => rfl
  | cons x xs ih =>
    by_cases hx : p x = true
    · simp [find_if, hx] at h
    · simp only [find_if, hx, Bool.false_eq_true, if_false] at h
      simp [find_if, hx, ih h]

/-- C12: `addAnswer` puts the new option at the end of the option sequence and leaves the
earlier options, their order and the prompt as they were. The verdict of `checkAnswer(m)`
is unchanged when `m` is not the new label or an option with the new label was already
stored, and `checkAnswer` of the new label is the new flag when no option had that label. -/
theorem Question.addAnswer_frame (q : Question) (l : Char) (text : String) (c : Bool)
    (m : Char) :
    (q.addAnswer l text c).answers = q.answers ++ [Answer.mk l text c] ∧
    (q.addAnswer l text c).questionText = q.questionText ∧
    ((m ≠ l ∨ ∃ a ∈ q.answers, a.option = l) →
      (q.addAnswer l text c).checkAnswer m = q.checkAnswer m) ∧
    ((∀ a ∈ q.answers, a.option ≠ l) → (q.addAnswer l text c).checkAnswer l = c) := by
  refine ⟨rfl, rfl, ?_, ?_⟩
  · intro h
    unfold Question.checkAnswer Question.addAnswer
    simp only
    cases hf : find_if (fun answer => answer.getOption == m) q.answers with
    | some b => rw [find_if_append_of_some _ _ _ _ hf]
    | none =>
      rw [find_if_append_of_none _ _ _ hf]
      have hnone := (find_if_eq_none_iff _ _).1 hf
      have hml : m ≠ l := by
        rcases h with h | ⟨a, ha, hal⟩
        · exact h
        · intro hml
          have := hnone a ha
          simp [Answer.getOption, hal, hml] at this
      have hlm : ¬ (l = m) := fun e => hml e.symm
      simp [find_if, Answer.getOption, hlm]
  · intro h
    unfold Question.checkAnswer Question.addAnswer
    simp only
    have hf : find_if (fun answer => answer.getOption == l) q.answers = none :=
      (find_if_eq_none_iff _ _).2 (fun a ha => by simpa [Answer.getOption] using h a ha)
    rw [find_if_append_of_none _ _ _ hf]
    simp [find_if, Answer.getOption, Answer.isCorrectAnswer]

/-- C12 used at the question with the options A(false), B(true): adding a second option
A(true) leaves the verdict on A false, and adding C(true) grades C true. -/
theorem Question.addAnswer_frame_witness :
    ((Question.mk "q" [⟨'A', "x", false⟩, ⟨'B', "y", true⟩]).addAnswer 'A' "z" true).checkAnswer
        'A' = false ∧
    ((Question.mk "q" [⟨'A', "x", false⟩, ⟨'B', "y", true⟩]).addAnswer 'C' "z" true).checkAnswer
        'C' = true :=
  ⟨((Question.addAnswer_frame (Question.mk "q" [⟨'A', "x", false⟩, ⟨'B', "y", true⟩])
      'A' "z" true 'A').2.2.1 (Or.inr ⟨⟨'A', "x", false⟩, by decide, rfl⟩)).trans (by decide),
   (Question.addAnswer_frame (Question.mk "q" [⟨'A', "x", false⟩, ⟨'B', "y", true⟩])
      'C' "z" true 'C').2.2.2 (by decide)⟩

/-! ## Responses with repeated entries, and responses without -/

theorem firstMatchCorrect_iff_exists_of_nodup (answers : List Answer) (l : Char)
    (h : (answers.map Answer.option).Nodup) :
    FirstMatchCorrect answers l ↔ ∃ a ∈ answers, a.option = l ∧ a.isCorrect = true := by
  constructor
  · rintro ⟨pre, a, post, hl, _, ha, hc⟩
    exact ⟨a, by simp [hl], ha, hc⟩
  · rintro ⟨a, hmem, ha, hc⟩
    obtain ⟨pre, post, hl⟩ := List.append_of_mem hmem
    refine ⟨pre, a, post, hl, ?_, ha, hc⟩
    intro b hb hbl
    have hbmem : b ∈ answers := by simp [hl, hb]
    have hba : b = a := List.inj_on_of_nodup_map h hbmem hmem (hbl.trans ha.symm)
    subst hba
    rw [hl, List.map_append, List.map_cons] at h
    exact (List.nodup_append.1 h).2.2 (List.mem_map_of_mem _ hb) (by simp)

theorem perm_of_nodup_of_subset_of_length_eq {β : Type} (l₁ l₂ : List β) (hnd : l₁.Nodup)
    (hsub : ∀ x ∈ l₁, x ∈ l₂) (hlen : l₁.length = l₂.length) : l₁.Perm l₂ :=
  (List.Nodup.subperm hnd hsub).perm_of_length_le (le_of_eq hlen.symm)

/-- C13: for a multiple-choice question with pairwise distinct labels, a response whose
length is the number of options flagged correct and whose entries are all labels of options
flagged correct is graded true, repeated entries included; so some such question and
response are graded true although a correct label is missing from the response. On the
question of `main` (A false, B true, C false, D true) the response [B, B] is graded true. -/
theorem MultipleChoiceQuestion.checkAnswer_repeated_label :
    (∀ (q : MultipleChoiceQuestion) (r : List Char),
      (q.answers.map Answer.option).Nodup →
      r.length = (q.answers.filter (fun a => a.isCorrect)).length →
      (∀ l ∈ r, ∃ a ∈ q.answers, a.option = l ∧ a.isCorrect = true) →
      q.checkAnswer r = true) ∧
    (∃ (q : MultipleChoiceQuestion) (r : List Char),
      (q.answers.map Answer.option).Nodup ∧ q.checkAnswer r = true ∧
      ∃ a ∈ q.answers, a.isCorrect = true ∧ a.option ∉ r) ∧
    multipleChoiceQuestion.answers =
      [⟨'A', "Carrot", false⟩, ⟨'B', "Apple", true⟩, ⟨'C', "Tomato", false⟩,
        ⟨'D', "Banana", true⟩] ∧
    multipleChoiceQuestion.checkAnswer ['B', 'B'] = true := by
  refine ⟨?_, ?_, by decide, by decide⟩
  · intro q r hnd hlen hall
    rw [MultipleChoiceQuestion.multipleChoice_checkAnswer_eq_true_iff]
    exact ⟨hlen, fun l hl =>
      (firstMatchCorrect_iff_exists_of_nodup q.answers l hnd).2 (hall l hl)⟩
  · exact ⟨multipleChoiceQuestion, ['B', 'B'], by decide, by decide,
      ⟨'D', "Banana", true⟩, by decide, rfl, by decide⟩

/-- C13 used at the question of `main`: [D, D] has length 2 and D is the label of an option
flagged correct, so it is graded true. -/
theorem MultipleChoiceQuestion.checkAnswer_repeated_label_witness :
    (multipleChoiceQuestion.answers.map Answer.option).Nodup ∧
    multipleChoiceQuestion.checkAnswer ['D', 'D'] = true :=
  ⟨by decide,
    MultipleChoiceQuestion.checkAnswer_repeated_label.1 multipleChoiceQuestion ['D', 'D']
      (by decide) (by decide) (by decide)⟩

/-- C14: a response of the stored length all of whose label combinations exist among the
stored pairs is graded true by `MatchingQuestion::checkAnswer`, also when two entries match
the same stored pair; so there are stored pairs with pairwise distinct label combinations
and a response with a repeated combination that is graded true while a stored pair is
matched by no entry. -/
theorem MatchingQuestion.checkAnswer_containment :
    (∀ (q : MatchingQuestion) (r : List Pair),
      r.length = q.pairs.length →
      (∀ u ∈ r, u.labels ∈ q.pairs.map Pair.labels) →
      q.checkAnswer r = true) ∧
    (∃ (q : MatchingQuestion) (r : List Pair),
      (q.pairs.map Pair.labels).Nodup ∧ ¬ (r.map Pair.labels).Nodup ∧
      q.checkAnswer r = true ∧
      ∃ p ∈ q.pairs, p.labels ∉ r.map Pair.labels) := by
  constructor
  · intro q r hlen hall
    rw [MatchingQuestion.matching_checkAnswer_eq_true_iff_labels]
    refine ⟨by simpa using hlen, ?_⟩
    intro x hx
    obtain ⟨u, hu, rfl⟩ := List.mem_map.1 hx
    exact hall u hu
  · exact ⟨matchingQuestion, [userPair 'A' '1', userPair 'A' '1', userPair 'B' '2'],
      by decide, by decide, by decide, ⟨'C', "Item C", '3', "Option 3"⟩, by decide, by decide⟩

/-- C14 used at the question of `main`: [(B,2), (B,2), (B,2)] has the stored length 3 and
every entry has the labels of the stored pair (B,2), so it is graded true. -/
theorem MatchingQuestion.checkAnswer_containment_witness :
    matchingQuestion.checkAnswer [userPair 'B' '2', userPair 'B' '2', userPair 'B' '2']
      = true :=
  MatchingQuestion.checkAnswer_containment.1 matchingQuestion
    [userPair 'B' '2', userPair 'B' '2', userPair 'B' '2'] (by decide) (by decide)

theorem MultipleChoiceQuestion.correct_labels_nodup (q : MultipleChoiceQuestion)
    (h : (q.answers.map Answer.option).Nodup) :
    ((q.answers.filter (fun a => a.isCorrect)).map Answer.option).Nodup :=
  List.Nodup.sublist (List.Sublist.map _ (List.filter_sublist _)) h

theorem MultipleChoiceQuestion.mem_correct_labels_iff (q : MultipleChoiceQuestion) (l : Char)
    (h : (q.answers.map Answer.option).Nodup) :
    l ∈ (q.answers.filter (fun a => a.isCorrect)).map Answer.option ↔
      FirstMatchCorrect q.answers l := by
  rw [firstMatchCorrect_iff_exists_of_nodup q.answers l h]
  simp only [List.mem_map, List.mem_filter]
  constructor
  · rintro ⟨a, ⟨ha, hc⟩, hl⟩
    exact ⟨a, ha, hl, hc⟩
  · rintro ⟨a, ha, hl, hc⟩
    exact ⟨a, ⟨ha, hc⟩, hl⟩

/-- C16: for a multiple-choice question with pairwise distinct labels and a response without
a repeated label, `MultipleChoiceQuestion::checkAnswer` is true exactly when the labels of
the response are the labels of the stored options flagged correct (each one selected, no
other label selected); and for every question the verdict of a reordered response is the
verdict of the response. -/
theorem MultipleChoiceQuestion.checkAnswer_iff_same_labels :
    (∀ (q : MultipleChoiceQuestion) (r : List Char),
      (q.answers.map Answer.option).Nodup → r.Nodup →
      (q.checkAnswer r = true ↔
        ∀ l, l ∈ r ↔ l ∈ (q.answers.filter (fun a => a.isCorrect)).map Answer.option)) ∧
    (∀ (q : MultipleChoiceQuestion) (r r' : List Char),
      r.Perm r' → q.checkAnswer r = q.checkAnswer r') := by
  constructor
  · intro q r hq hr
    rw [MultipleChoiceQuestion.multipleChoice_checkAnswer_eq_true_iff]
    constructor
    · rintro ⟨hlen, hall⟩
      have hperm : r.Perm ((q.answers.filter (fun a => a.isCorrect)).map Answer.option) := by
        apply perm_of_nodup_of_subset_of_length_eq _ _ hr
        · intro l hl
          exact (MultipleChoiceQuestion.mem_correct_labels_iff q l hq).2 (hall l hl)
        · rw [List.length_map, hlen]
      exact fun l => hperm.mem_iff
    · intro hset
      have hperm : r.Perm ((q.answers.filter (fun a => a.isCorrect)).map Answer.option) :=
        (List.perm_ext_iff_of_nodup hr
          (MultipleChoiceQuestion.correct_labels_nodup q hq)).2 hset
      refine ⟨by simpa using hperm.length_eq, ?_⟩
      intro l hl
      exact (MultipleChoiceQuestion.mem_correct_labels_iff q l hq).1 ((hset l).1 hl)
  · intro q r r' h
    rw [Bool.eq_iff_iff, MultipleChoiceQuestion.multipleChoice_checkAnswer_eq_true_iff,
      MultipleChoiceQuestion.multipleChoice_checkAnswer_eq_true_iff, h.length_eq]
    constructor
    · rintro ⟨hlen, hall⟩
      exact ⟨hlen, fun l hl => hall l (h.mem_iff.2 hl)⟩
    · rintro ⟨hlen, hall⟩
      exact ⟨hlen, fun l hl => hall l (h.mem_iff.1 hl)⟩

/-- C16 used at the question of `main` (labels A, B, C, D; B and D flagged correct): the
response [D, B] has no repeated label and its labels are the correct ones, so it is
graded true, as is its reordering [B, D]. -/
theorem MultipleChoiceQuestion.checkAnswer_iff_same_labels_witness :
    (multipleChoiceQuestion.answers.map Answer.option).Nodup ∧ ['D', 'B'].Nodup ∧
    multipleChoiceQuestion.checkAnswer ['D', 'B'] = true ∧
    multipleChoiceQuestion.checkAnswer ['D', 'B'] =
      multipleChoiceQuestion.checkAnswer ['B', 'D'] :=
  ⟨by decide, by decide,
    (MultipleChoiceQuestion.checkAnswer_iff_same_labels.1 multipleChoiceQuestion ['D', 'B']
      (by decide) (by decide)).2 (fun _ => List.Perm.mem_iff (by decide)),
    MultipleChoiceQuestion.checkAnswer_iff_same_labels.2 multipleChoiceQuestion ['D', 'B']
      ['B', 'D'] (by decide)⟩

/-- C17: for a matching question and a response whose entries have pairwise distinct label
combinations, `MatchingQuestion::checkAnswer` is true exactly when the label combinations
of the response are a permutation of the stored ones. This holds in particular when the
stored pairs have pairwise distinct label combinations, which the proof does not need. -/
theorem MatchingQuestion.checkAnswer_iff_perm_of_nodup (q : MatchingQuestion) (r : List Pair)
    (hr : (r.map Pair.labels).Nodup) :
    q.checkAnswer r = true ↔ (r.map Pair.labels).Perm (q.pairs.map Pair.labels) := by
  rw [MatchingQuestion.matching_checkAnswer_eq_true_iff_labels]
  constructor
  · rintro ⟨hlen, hall⟩
    exact perm_of_nodup_of_subset_of_length_eq _ _ hr hall hlen
  · intro h
    exact ⟨h.length_eq, fun x hx => h.subset hx⟩

/-- C17 used at the question of `main`, whose stored label combinations are pairwise
distinct: the response [(C,3), (A,1), (B,2)] is graded true, and the response
[(A,1), (B,2), (D,4)] of distinct combinations, which is no permutation of the stored
ones, is not. -/
theorem MatchingQuestion.checkAnswer_iff_perm_of_nodup_witness :
    (matchingQuestion.pairs.map Pair.labels).Nodup ∧
    matchingQuestion.checkAnswer [userPair 'C' '3', userPair 'A' '1', userPair 'B' '2']
      = true ∧
    ¬ (matchingQuestion.checkAnswer [userPair 'A' '1', userPair 'B' '2', userPair 'D' '4']
      = true) :=
  ⟨by decide,
    (MatchingQuestion.checkAnswer_iff_perm_of_nodup matchingQuestion
      [userPair 'C' '3', userPair 'A' '1', userPair 'B' '2'] (by decide)).2 (by decide),
    fun h => absurd
      ((MatchingQuestion.checkAnswer_iff_perm_of_nodup matchingQuestion
        [userPair 'A' '1', userPair 'B' '2', userPair 'D' '4'] (by decide)).1 h)
      (by decide)⟩

/-! ## HalfCorrectChoiceQuestion::checkAnswer: length test, padding, edge cases -/

theorem count_if_le_length {α : Type} (p : α → Bool) (l : List α) :
    count_if p l ≤ l.length := by
  rw [count_if_eq_countP]
  exact List.countP_le_length p

theorem count_if_append {α : Type} (p : α → Bool) (l₁ l₂ : List α) :
    count_if p (l₁ ++ l₂) = count_if p l₁ + count_if p l₂ := by
  simp only [count_if_eq_countP, List.countP_append]

theorem HalfCorrectChoiceQuestion.checkAnswer_eq_decide (q : HalfCorrectChoiceQuestion)
    (r : List Char) :
    q.checkAnswer r =
      decide (HalfCorrectChoiceQuestion.minCorrectAnswersRequired q.countCorrectAnswers ≤
        count_if (fun userAnswer => q.isCorrectAnswer userAnswer) r) := by
  unfold HalfCorrectChoiceQuestion.checkAnswer
  simp only [ge_iff_le]
  by_cases hlt : r.length <
      HalfCorrectChoiceQuestion.minCorrectAnswersRequired q.countCorrectAnswers
  · have hle := count_if_le_length (fun userAnswer => q.isCorrectAnswer userAnswer) r
    have hnot : ¬ (HalfCorrectChoiceQuestion.minCorrectAnswersRequired q.countCorrectAnswers ≤
        count_if (fun userAnswer => q.isCorrectAnswer userAnswer) r) := by omega
    simp [hlt, hnot]
  · simp [hlt]

/-- C15: when `HalfCorrectChoiceQuestion::checkAnswer` grades a response `r` true, it
grades `r ++ p` and `p ++ r` true for every list `p` of labels. -/
theorem HalfCorrectChoiceQuestion.checkAnswer_padding (q : HalfCorrectChoiceQuestion)
    (r p : List Char) (h : q.checkAnswer r = true) :
    q.checkAnswer (r ++ p) = true ∧ q.checkAnswer (p ++ r) = true := by
  rw [HalfCorrectChoiceQuestion.checkAnswer_eq_decide, decide_eq_true_eq] at h
  constructor
  · rw [HalfCorrectChoiceQuestion.checkAnswer_eq_decide, decide_eq_true_eq, count_if_append]
    omega
  · rw [HalfCorrectChoiceQuestion.checkAnswer_eq_decide, decide_eq_true_eq, count_if_append]
    omega

/-- C15 used at the question of `main` (A true, B false, C true): [A] is graded true, and
so are [A] followed by the incorrect B and the unknown Z, and [B, Z] followed by [A]. -/
theorem HalfCorrectChoiceQuestion.checkAnswer_padding_witness :
    halfCorrectChoiceQuestion.checkAnswer ['A'] = true ∧
    halfCorrectChoiceQuestion.checkAnswer (['A'] ++ ['B', 'Z']) = true ∧
    halfCorrectChoiceQuestion.checkAnswer (['B', 'Z'] ++ ['A']) = true :=
  ⟨by decide,
    HalfCorrectChoiceQuestion.checkAnswer_padding halfCorrectChoiceQuestion ['A'] ['B', 'Z']
      (by decide)⟩

/-- C18: `HalfCorrectChoiceQuestion::checkAnswer` returns what the function without the
early return on the response length returns, namely whether the number of individually
correct response entries reaches the threshold; for a question whose option vector has a
size representable in `size_t` the threshold is `total / 2 + total % 2` with `total` the
number of options flagged correct. -/
theorem HalfCorrectChoiceQuestion.length_test_redundant :
    (∀ (q : HalfCorrectChoiceQuestion) (r : List Char),
      q.checkAnswer r = q.checkAnswerWithoutLengthTest r) ∧
    (∀ (q : HalfCorrectChoiceQuestion) (r : List Char),
      q.checkAnswer r =
        decide (HalfCorrectChoiceQuestion.minCorrectAnswersRequired q.countCorrectAnswers ≤
          (r.filter (fun l => decide (FirstMatchCorrect q.answers l))).length)) ∧
    (∀ (q : HalfCorrectChoiceQuestion) (r : List Char) (total : Nat),
      q.answers.length < SIZE_MOD →
      total = (q.answers.filter (fun a => a.isCorrect)).length →
      q.checkAnswer r =
        decide (total / 2 + total % 2 ≤
          (r.filter (fun l => decide (FirstMatchCorrect q.answers l))).length)) := by
  refine ⟨?_, ?_, ?_⟩
  · intro q r
    rw [HalfCorrectChoiceQuestion.checkAnswer_eq_decide]
    rfl
  · intro q r
    rw [HalfCorrectChoiceQuestion.checkAnswer_eq_decide,
      HalfCorrectChoiceQuestion.correctAnswersSelected_eq]
  · intro q r total hsize htotal
    have hle := HalfCorrectChoiceQuestion.halfCorrect_countCorrectAnswers_le q
    rw [HalfCorrectChoiceQuestion.checkAnswer_eq_decide,
      HalfCorrectChoiceQuestion.correctAnswersSelected_eq,
      HalfCorrectChoiceQuestion.minCorrectAnswersRequired_eq _ (by omega),
      HalfCorrectChoiceQuestion.halfCorrect_countCorrectAnswers_eq, ← htotal]

/-- C18 used at the question of `main` (A true, B false, C true; two options flagged
correct, threshold 1): the verdict on [B, C] is the comparison of 1 with the number of
correct entries of [B, C]. -/
theorem HalfCorrectChoiceQuestion.length_test_redundant_witness :
    halfCorrectChoiceQuestion.checkAnswer ['B', 'C'] =
      decide (2 / 2 + 2 % 2 ≤
        (['B', 'C'].filter
          (fun l => decide (FirstMatchCorrect halfCorrectChoiceQuestion.answers l))).length) :=
  HalfCorrectChoiceQuestion.length_test_redundant.2.2 halfCorrectChoiceQuestion ['B', 'C'] 2
    (by decide) (by decide)

/-- C19: a half-correct-choice question without an option flagged correct, the question
without options included, grades every response true; a question with an option flagged
correct (its option vector has a size representable in `size_t`, as every vector has)
grades the empty response false. -/
theorem HalfCorrectChoiceQuestion.checkAnswer_no_correct_option :
    (∀ (q : HalfCorrectChoiceQuestion) (r : List Char),
      (∀ a ∈ q.answers, a.isCorrect = false) → q.checkAnswer r = true) ∧
    (∀ (text : String) (r : List Char),
      (HalfCorrectChoiceQuestion.new text).checkAnswer r = true) ∧
    (∀ q : HalfCorrectChoiceQuestion, q.answers.length < SIZE_MOD →
      (∃ a ∈ q.answers, a.isCorrect = true) → q.checkAnswer [] = false) := by
  have hnone : ∀ (q : HalfCorrectChoiceQuestion) (r : List Char),
      (∀ a ∈ q.answers, a.isCorrect = false) → q.checkAnswer r = true := by
    intro q r h
    have h0 : q.countCorrectAnswers = 0 := by
      rw [HalfCorrectChoiceQuestion.halfCorrect_countCorrectAnswers_eq, List.length_eq_zero,
        List.filter_eq_nil_iff]
      intro a ha
      simp [h a ha]
    rw [HalfCorrectChoiceQuestion.checkAnswer_eq_decide, h0, decide_eq_true_eq]
    simp [HalfCorrectChoiceQuestion.minCorrectAnswersRequired]
  refine ⟨hnone, ?_, ?_⟩
  · intro text r
    exact hnone _ r (fun a ha => by simp [HalfCorrectChoiceQuestion.new, Question.new] at ha)
  · intro q hsize hex
    obtain ⟨a, ha, hc⟩ := hex
    have hle := HalfCorrectChoiceQuestion.halfCorrect_countCorrectAnswers_le q
    have hpos : 0 < q.countCorrectAnswers := by
      rw [HalfCorrectChoiceQuestion.halfCorrect_countCorrectAnswers_eq]
      exact List.length_pos_of_mem (List.mem_filter.2 ⟨ha, hc⟩)
    rw [HalfCorrectChoiceQuestion.checkAnswer_eq_decide, decide_eq_false_iff_not,
      HalfCorrectChoiceQuestion.minCorrectAnswersRequired_eq _ (by omega)]
    simp only [count_if]
    omega

/-- C19 used at a question whose options A and B are both flagged incorrect, where the
response [A, Z] and the empty response are graded true, and at the question of `main`
(A true, B false, C true), where the empty response is graded false. -/
theorem HalfCorrectChoiceQuestion.checkAnswer_no_correct_option_witness :
    (HalfCorrectChoiceQuestion.mk (Question.mk "q" [⟨'A', "x", false⟩, ⟨'B', "y", false⟩])
      ).checkAnswer ['A', 'Z'] = true ∧
    (HalfCorrectChoiceQuestion.mk (Question.mk "q" [⟨'A', "x", false⟩, ⟨'B', "y", false⟩])
      ).checkAnswer [] = true ∧
    halfCorrectChoiceQuestion.checkAnswer [] = false :=
  ⟨HalfCorrectChoiceQuestion.checkAnswer_no_correct_option.1
      (HalfCorrectChoiceQuestion.mk (Question.mk "q" [⟨'A', "x", false⟩, ⟨'B', "y", false⟩]))
      ['A', 'Z'] (by decide),
    HalfCorrectChoiceQuestion.checkAnswer_no_correct_option.1
      (HalfCorrectChoiceQuestion.mk (Question.mk "q" [⟨'A', "x", false⟩, ⟨'B', "y", false⟩]))
      [] (by decide),
    HalfCorrectChoiceQuestion.checkAnswer_no_correct_option.2.2 halfCorrectChoiceQuestion
      (by decide) (by decide)⟩

theorem count_if_replicate_of_true {α : Type} (p : α → Bool) (x : α) (n : Nat)
    (h : p x = true) : count_if p (List.replicate n x) = n := by
  induction n with
  | zero => rfl
  | succ k ih => simp [List.replicate_succ, count_if, h, ih]

/-- C20: `HalfCorrectChoiceQuestion::checkAnswer` counts a repeated correct label once per
occurrence. For every question and every individually correct label `l`: the response made
of `n` copies of `l` is graded true exactly when `n` reaches the threshold, and putting one
more `l` before any response `r`, whether or not `l` occurs in `r`, is graded true exactly
when the threshold is at most one more than the number of correct entries of `r`. With the
pairwise distinct options A, B, C all flagged correct the threshold is 2: [A] and [A, Z]
are graded false, [A, A] is graded true although it holds one distinct correct label, so
some question with pairwise distinct labels grades true a response whose number of
distinct correct labels is below the threshold. -/
theorem HalfCorrectChoiceQuestion.checkAnswer_counts_repeats :
    (∀ (q : HalfCorrectChoiceQuestion) (l : Char) (n : Nat),
      FirstMatchCorrect q.answers l →
      (q.checkAnswer (List.replicate n l) = true ↔
        HalfCorrectChoiceQuestion.minCorrectAnswersRequired q.countCorrectAnswers ≤ n)) ∧
    (∀ (q : HalfCorrectChoiceQuestion) (l : Char) (r : List Char),
      FirstMatchCorrect q.answers l →
      (q.checkAnswer (l :: r) = true ↔
        HalfCorrectChoiceQuestion.minCorrectAnswersRequired q.countCorrectAnswers ≤
          (r.filter (fun m => decide (FirstMatchCorrect q.answers m))).length + 1)) ∧
    threeCorrectQuestion.answers =
      [⟨'A', "Option A", true⟩, ⟨'B', "Option B", true⟩, ⟨'C', "Option C", true⟩] ∧
    HalfCorrectChoiceQuestion.minCorrectAnswersRequired
      threeCorrectQuestion.countCorrectAnswers = 2 ∧
    threeCorrectQuestion.checkAnswer ['A'] = false ∧
    threeCorrectQuestion.checkAnswer ['A', 'Z'] = false ∧
    threeCorrectQuestion.checkAnswer ['A', 'A'] = true ∧
    (['A', 'A'].dedup.filter
      (fun l => decide (FirstMatchCorrect threeCorrectQuestion.answers l))).length = 1 ∧
    (∃ (q : HalfCorrectChoiceQuestion) (r : List Char),
      (q.answers.map Answer.option).Nodup ∧ q.checkAnswer r = true ∧
      (r.dedup.filter (fun l => decide (FirstMatchCorrect q.answers l))).length <
        HalfCorrectChoiceQuestion.minCorrectAnswersRequired q.countCorrectAnswers) := by
  refine ⟨?_, ?_, by decide, by decide, by decide, by decide, by decide, by decide, ?_⟩
  · intro q l n hl
    have hp : q.isCorrectAnswer l = true :=
      (HalfCorrectChoiceQuestion.halfCorrect_isCorrectAnswer_eq_true_iff q l).2 hl
    rw [HalfCorrectChoiceQuestion.checkAnswer_eq_decide, decide_eq_true_eq,
      count_if_replicate_of_true (fun userAnswer => q.isCorrectAnswer userAnswer) l n hp]
  · intro q l r hl
    have hp : q.isCorrectAnswer l = true :=
      (HalfCorrectChoiceQuestion.halfCorrect_isCorrectAnswer_eq_true_iff q l).2 hl
    rw [HalfCorrectChoiceQuestion.checkAnswer_eq_decide, decide_eq_true_eq,
      ← HalfCorrectChoiceQuestion.correctAnswersSelected_eq]
    simp only [count_if, hp, if_true]
  · exact ⟨threeCorrectQuestion, ['A', 'A'], by decide, by decide, by decide⟩

/-- C20 used at the question with the options A, B, C all flagged correct (threshold 2):
A is individually correct, so two copies of A are graded true, one copy is not, and A put
before [A, Z], where A already occurs, is graded true. -/
theorem HalfCorrectChoiceQuestion.checkAnswer_counts_repeats_witness :
    FirstMatchCorrect threeCorrectQuestion.answers 'A' ∧
    threeCorrectQuestion.checkAnswer (List.replicate 2 'A') = true ∧
    ¬ (threeCorrectQuestion.checkAnswer (List.replicate 1 'A') = true) ∧
    threeCorrectQuestion.checkAnswer ('A' :: ['A', 'Z']) = true :=
  ⟨by decide,
    (HalfCorrectChoiceQuestion.checkAnswer_counts_repeats.1 threeCorrectQuestion 'A' 2
      (by decide)).2 (by decide),
    fun h => absurd
      ((HalfCorrectChoiceQuestion.checkAnswer_counts_repeats.1 threeCorrectQuestion 'A' 1
        (by decide)).1 h) (by decide),
    (HalfCorrectChoiceQuestion.checkAnswer_counts_repeats.2.1 threeCorrectQuestion 'A'
      ['A', 'Z'] (by decide)).2 (by decide)⟩

end Quiz
